import Mathlib

/-!
Verification development for the YouTube strategy dashboard
(`src/utils.ts`, `src/views/ChannelAnalysis.tsx`, `src/views/KeywordAnalysis.tsx`,
`src/unnamed/part_001` — the YouTube data gateway with `findRisingChannels`).

Shallow embedding: the pure data-shaping routines are translated into Lean
functions; remote responses are passed in explicitly as data; JS `number`
arithmetic on counts is modelled with `Nat`/`Int`/`Rat` (all counts in the
source are parsed integers, and the score ratios are exact rationals);
`Math.round` is modelled by Mathlib's `round` (both are `⌊x + 1/2⌋`).
-/

namespace YTS

/-! ### Duration parser (`src/utils.ts`, `parseDuration`)

The source matches `duration` against the regex `/PT(\d+H)?(\d+M)?(\d+S)?/`
(unanchored, so the match starts at the first occurrence of `"PT"`), then
`parseInt`s each captured group (e.g. `"12H"` parses as `12`), defaulting a
missing group to `0`.  For each optional group `(\d+X)?` at the current
position: it participates exactly when a non-empty run of digits is followed
immediately by the marker `X` (digits cannot backtrack into the marker), and
it then consumes that whole run plus the marker. -/

/-- Numeric value of a run of decimal digits, as `parseInt` reads it. -/
def digitsToNat (l : List Char) : Nat :=
  l.foldl (fun n c => n * 10 + (c.toNat - 48)) 0

/-- One optional regex group `(\d+X)?` at the current position: returns the
parsed number (0 when the group is missing) and the remaining input. -/
def grabGroup (marker : Char) (l : List Char) : Nat × List Char :=
  let ds := l.takeWhile (·.isDigit)
  match l.dropWhile (·.isDigit) with
  | c :: r2 => if ds ≠ [] ∧ c = marker then (digitsToNat ds, r2) else (0, l)
  | [] => (0, l)

/-- The portion of the regex after the literal `PT`:
`(\d+H)?(\d+M)?(\d+S)?`, combined as in the source
(`hours * 3600 + minutes * 60 + seconds`). -/
def parseAfterPT (l : List Char) : Nat :=
  let hp := grabGroup 'H' l
  let mp := grabGroup 'M' hp.2
  let sp := grabGroup 'S' mp.2
  hp.1 * 3600 + mp.1 * 60 + sp.1

/-- The suffix following the first occurrence of `"PT"` (the leftmost
position where the unanchored regex can match), or `none` if the string
contains no `"PT"` and the regex therefore fails. -/
def afterPT : List Char → Option (List Char)
  | [] => none
  | 'P' :: 'T' :: rest => some rest
  | _ :: rest => afterPT rest

/-- `parseDuration` from `src/utils.ts`: total seconds of a compact
ISO-8601-style duration, `0` when the regex does not match. -/
def parseDuration (duration : String) : Nat :=
  match afterPT duration.data with
  | none => 0
  | some rest => parseAfterPT rest

/-- Whether a character list contains `"PT"` as a contiguous substring,
i.e. whether the source's regex has any match at all. -/
def containsPT : List Char → Bool
  | [] => false
  | 'P' :: 'T' :: _ => true
  | _ :: rest => containsPT rest

/-! ### Popularity scorer
(`calculateVideoScore` in `src/views/KeywordAnalysis.tsx` lines 18–23 and
`src/views/ChannelAnalysis.tsx` lines 22–28 — the two copies are identical). -/

/-- A fetched video record (`YouTubeVideo` in `src/types`), as produced by
`getVideoDetails` in the gateway: counts default to `0` on missing data,
`publishedAt` is the timestamp in milliseconds (`Date.getTime()`). -/
structure YouTubeVideo where
  id : String
  title : String
  publishedAt : Int
  channelId : String
  viewCount : Nat
  likeCount : Nat
  commentCount : Nat
  duration : String
  deriving Repr, DecidableEq

/-- `calculateVideoScore`: weighted composite of the item's share of the
collection maxima (views 50 %, likes 30 %, comments 20 %), each share `0`
when the corresponding maximum is `0` (JS falsy guard), rounded with
`Math.round` (= `⌊x + 1/2⌋`). -/
def calculateVideoScore (v : YouTubeVideo)
    (maxViews maxLikes maxComments : Nat) : Int :=
  let viewScore : ℚ := if maxViews = 0 then 0 else ((v.viewCount : ℚ) / maxViews) * 50
  let likeScore : ℚ := if maxLikes = 0 then 0 else ((v.likeCount : ℚ) / maxLikes) * 30
  let commentScore : ℚ := if maxComments = 0 then 0 else ((v.commentCount : ℚ) / maxComments) * 20
  round (viewScore + likeScore + commentScore)

/-- `Math.max(...videos.map(v => v.viewCount))` over a collection
(the callers only evaluate it on non-empty collections, where the `0`
seed of the fold is absorbed). -/
def maxViewsOf (vs : List YouTubeVideo) : Nat :=
  (vs.map (·.viewCount)).foldr max 0

/-- `Math.max(...videos.map(v => v.likeCount))`. -/
def maxLikesOf (vs : List YouTubeVideo) : Nat :=
  (vs.map (·.likeCount)).foldr max 0

/-- `Math.max(...videos.map(v => v.commentCount))`. -/
def maxCommentsOf (vs : List YouTubeVideo) : Nat :=
  (vs.map (·.commentCount)).foldr max 0

/-- The popularity score the two views attach to `v` when scoring the
collection `vs`. -/
def scoreIn (vs : List YouTubeVideo) (v : YouTubeVideo) : Int :=
  calculateVideoScore v (maxViewsOf vs) (maxLikesOf vs) (maxCommentsOf vs)

/-! ### Stable sort (model of `Array.prototype.sort`)

The views call `.sort(cmp)` with numeric comparators of the form
`(a, b) => key(b) - key(a)` (descending) or `key(a) - key(b)` (ascending).
ECMAScript's `Array.prototype.sort` is specified to be stable, and a stable
sort by a total preorder has a unique result, so we model it by a stable
insertion sort with respect to `le a b := cmp(a, b) ≤ 0`. -/

/-- Insert `x` before the first element `y` with `le x y` (stable: among
equal keys, the inserted element — which came earlier in the input — stays
first). -/
def insertLe (le : α → α → Bool) (x : α) : List α → List α
  | [] => [x]
  | y :: ys => if le x y then x :: y :: ys else y :: insertLe le x ys

/-- Stable insertion sort. -/
def insertionSort (le : α → α → Bool) : List α → List α
  | [] => []
  | x :: xs => insertLe le x (insertionSort le xs)

/-! ### Video collection processors
(`sortedVideos` in `src/views/ChannelAnalysis.tsx` lines 86–104 and
`processedVideos` in `src/views/KeywordAnalysis.tsx` lines 113–142). -/

/-- A video together with the popularity score the processor attached
(`{...v, popularityScore}`). -/
structure ScoredVideo where
  video : YouTubeVideo
  popularityScore : Int
  deriving Repr, DecidableEq

/-- `parseDuration(v.duration) < 180` — the short-form classification. -/
def isShortVideo (v : ScoredVideo) : Bool :=
  parseDuration v.video.duration < 180

/-- The type filter shared by both views (`FilterOption` in ChannelAnalysis,
`VideoTypeFilter` in KeywordAnalysis): `all` / `video` (regular) /
`shorts` (short-form). -/
inductive VideoTypeFilter where
  | all
  | video
  | shorts
  deriving Repr, DecidableEq

/-- The filter step of `sortedVideos` in ChannelAnalysis: `shorts` keeps
`parseDuration < 180`, `video` keeps `parseDuration >= 180`, `all` keeps
everything. -/
def caFilter : VideoTypeFilter → List ScoredVideo → List ScoredVideo
  | .all, l => l
  | .video, l => l.filter (fun v => !isShortVideo v)
  | .shorts, l => l.filter (fun v => isShortVideo v)

/-- The filter step of `processedVideos` in KeywordAnalysis (a single
`filter` whose predicate returns `true` for `all`). -/
def kaFilter : VideoTypeFilter → List ScoredVideo → List ScoredVideo
  | .all, l => l.filter (fun _ => true)
  | .video, l => l.filter (fun v => !isShortVideo v)
  | .shorts, l => l.filter (fun v => isShortVideo v)

/-- `SortOption` of ChannelAnalysis. -/
inductive CASortOption where
  | popularity
  | views
  | dateDesc
  | dateAsc
  deriving Repr, DecidableEq

/-- `SortOption` of KeywordAnalysis (`date` sorts newest first). -/
inductive KASortOption where
  | popularity
  | views
  | date
  deriving Repr, DecidableEq

/-- The "comes before (or ties)" relation of each ChannelAnalysis
comparator: `cmp(a, b) ≤ 0`. -/
def caLE : CASortOption → ScoredVideo → ScoredVideo → Bool
  | .popularity, a, b => b.popularityScore ≤ a.popularityScore
  | .views, a, b => b.video.viewCount ≤ a.video.viewCount
  | .dateDesc, a, b => b.video.publishedAt ≤ a.video.publishedAt
  | .dateAsc, a, b => a.video.publishedAt ≤ b.video.publishedAt

/-- The "comes before (or ties)" relation of each KeywordAnalysis
comparator. -/
def kaLE : KASortOption → ScoredVideo → ScoredVideo → Bool
  | .popularity, a, b => b.popularityScore ≤ a.popularityScore
  | .views, a, b => b.video.viewCount ≤ a.video.viewCount
  | .date, a, b => b.video.publishedAt ≤ a.video.publishedAt

/-- ChannelAnalysis `sortedVideos`: filter, then sort. -/
def caSortedVideos (f : VideoTypeFilter) (s : CASortOption)
    (l : List ScoredVideo) : List ScoredVideo :=
  insertionSort (caLE s) (caFilter f l)

/-- KeywordAnalysis `processedVideos` steps 2–3: filter, then sort. -/
def kaProcessedVideos (f : VideoTypeFilter) (s : KASortOption)
    (l : List ScoredVideo) : List ScoredVideo :=
  insertionSort (kaLE s) (kaFilter f l)

/-- Step 1 of both processors: attach the popularity score computed against
the collection maxima of the full (unfiltered) list. -/
def addScores (vs : List YouTubeVideo) : List ScoredVideo :=
  vs.map (fun v => ⟨v, scoreIn vs v⟩)

/-! ### Rising-channel aggregator (`findRisingChannels`, `src/unnamed/part_001`)

The remote responses (search results, channel-batch response, video-batch
response) are passed in explicitly as data.  Timestamps are milliseconds
since the epoch (`Date.getTime()`); `date.setDate(date.getDate() - n)`
subtracts exactly `n` calendar days, modelled as `n * 86400000` ms. -/

/-- The caller-selected recency window (`RisingPeriod` in `src/types`). -/
inductive RisingPeriod where
  | m3
  | m6
  | y1
  | all
  deriving Repr, DecidableEq

/-- Milliseconds per day. -/
def msPerDay : Int := 86400000

/-- `channelCreationCutoff` computed in step 1 of `findRisingChannels`:
`now − 90/180/365` days, or `new Date(0)` (the epoch) for the unbounded
window. -/
def channelCreationCutoff (now : Int) : RisingPeriod → Int
  | .m3 => now - 90 * msPerDay
  | .m6 => now - 180 * msPerDay
  | .y1 => now - 365 * msPerDay
  | .all => 0

/-- One item of the search response, as the aggregator reads it
(`item.snippet.channelId`, `item.id.videoId`). -/
structure SearchItem where
  channelId : String
  videoId : String
  deriving Repr, DecidableEq

/-- One item of the channel-batch response, as the aggregator reads it
(`item.id`, `item.snippet.title`, `item.snippet.publishedAt`,
`item.statistics.*` with counts parsed to integers). -/
structure ChannelItem where
  id : String
  title : String
  publishedAt : Int
  subscriberCount : Nat
  videoCount : Nat
  viewCount : Nat
  deriving Repr, DecidableEq

/-- The `YouTubeChannel` object the aggregator builds (its
`subscriberCount` holds the already-clamped `subCount`). -/
structure YouTubeChannel where
  id : String
  title : String
  publishedAt : Int
  subscriberCount : Nat
  videoCount : Nat
  viewCount : Nat
  deriving Repr, DecidableEq

/-- `RisingChannelResult` from `src/types`: a channel, its representative
video, and the virality score (an exact rational in the model; the source
computes the same ratio in floating point). -/
structure RisingChannelResult where
  details : YouTubeChannel
  topVideo : YouTubeVideo
  topVideoViews : Nat
  score : ℚ
  deriving Repr, DecidableEq

/-- The remote data `findRisingChannels` consumes: the current time and the
three responses.  `channelItems` is the `chData.items` array answering the
channel-batch request; `videoItems` answers the video-batch request. -/
structure RisingEnv where
  now : Int
  searchItems : List SearchItem
  channelItems : List ChannelItem
  videoItems : List YouTubeVideo
  deriving Repr

/-- One step of the `searchData.items.forEach` loop of step 3: record the
channel and its first-seen video if the channel is new
(`channelIdsSet.has` / `.add` / `videoMap.set`). -/
def collectStep (acc : List (String × String)) (it : SearchItem) :
    List (String × String) :=
  if acc.any (fun p => p.1 = it.channelId) then acc
  else acc ++ [(it.channelId, it.videoId)]

/-- The `videoMap` (channel id → first-seen video id) in insertion order;
its keys in order are `Array.from(channelIdsSet)`. -/
def collectChannels (items : List SearchItem) : List (String × String) :=
  items.foldl collectStep []

/-- `videoDetailsMap.get`: a JS `Map` built from an array of key/value
pairs keeps the last binding of a duplicated key. -/
def lookupVideoDetail (videos : List YouTubeVideo) (vid : String) :
    Option YouTubeVideo :=
  videos.reverse.find? (fun v => v.id = vid)

/-- The body of the `chData.items.forEach` loop (steps 5–6): keep the
channel when its creation timestamp is on/after the cutoff and its
representative video resolved, emitting the `RisingChannelResult`. -/
def processChannel (cutoff : Int) (collected : List (String × String))
    (videos : List YouTubeVideo) (item : ChannelItem) :
    Option RisingChannelResult :=
  if cutoff ≤ item.publishedAt then
    match (collected.find? (fun p => p.1 = item.id)).map Prod.snd with
    | none => none
    | some vid =>
      match lookupVideoDetail videos vid with
      | none => none
      | some fullVideo =>
        let subCount : Nat :=
          if item.subscriberCount = 0 then 1 else item.subscriberCount
        let viralScore : ℚ :=
          if 0 < subCount then (fullVideo.viewCount : ℚ) / subCount else 0
        some
          { details :=
              { id := item.id
                title := item.title
                publishedAt := item.publishedAt
                subscriberCount := subCount
                videoCount := item.videoCount
                viewCount := item.viewCount }
            topVideo := fullVideo
            topVideoViews := fullVideo.viewCount
            score := viralScore }
  else none

/-- Result of a `findRisingChannels` run together with the number of
remote requests issued after the initial search (the channel-batch and
video-batch requests). -/
structure RisingOutcome where
  results : List RisingChannelResult
  downstreamCalls : Nat
  deriving Repr

/-- `findRisingChannels`: collect first-seen videos per channel from the
search response, cap the channel set at 40 (`slice(0, 40)`), return early
when it is empty, otherwise process every channel item of the batch
response and sort the survivors by score descending. -/
def findRisingChannels (env : RisingEnv) (period : RisingPeriod) :
    RisingOutcome :=
  let cutoff := channelCreationCutoff env.now period
  let collected := collectChannels env.searchItems
  let channelIds := (collected.map Prod.fst).take 40
  if channelIds.isEmpty then ⟨[], 0⟩
  else
    let results :=
      env.channelItems.filterMap (processChannel cutoff collected env.videoItems)
    ⟨insertionSort (fun a b => b.score ≤ a.score) results, 2⟩

/-! ### Delimited-text exporter (`downloadCSV`, `src/utils.ts` lines 54–65)

A record is modelled as its ordered list of (field name, stringified value)
pairs — `Object.keys` / `Object.values` enumerate a JS object's own keys in
insertion order.  The exporter's output is the text handed to the `Blob`:
`'﻿' + csvContent`.  `Array.prototype.join(',')` is `joinSep ","`. -/

/-- One uniform record: field names with already-stringified values. -/
abbrev CSVRecord := List (String × String)

/-- `Array.prototype.join(sep)`. -/
def joinSep (sep : String) : List String → String
  | [] => ""
  | [x] => x
  | x :: xs => x ++ sep ++ joinSep sep xs

/-- `String(v).replace(/"/g, '""')` at the character level: every quote is
doubled. -/
def escChars : List Char → List Char
  | [] => []
  | '"' :: cs => '"' :: '"' :: escChars cs
  | c :: cs => c :: escChars cs

/-- `` `"${String(v).replace(/"/g, '""')}"` ``: double embedded quotes and
wrap in quotes. -/
def csvQuote (s : String) : String :=
  ⟨'"' :: (escChars s.data ++ ['"'])⟩

/-- The byte-order marker prefixed to the blob content. -/
def bomStr : String := "﻿"

/-- The full text `downloadCSV` writes for a record list: `none` when the
record list is empty (the function returns without producing output);
otherwise the BOM, the comma-joined keys of the first record, and one
quoted comma-joined row per record, all joined with `'\n'`. -/
def downloadCSVContent : List CSVRecord → Option String
  | [] => none
  | r0 :: rest =>
    let headers := joinSep "," (r0.map Prod.fst)
    let rows := (r0 :: rest).map
      (fun r => joinSep "," (r.map (fun kv => csvQuote kv.2)))
    some (bomStr ++ joinSep "\n" (headers :: rows))

/-- Spec-side quoting, following §4.5 of the spec: "every value is quoted
and comma-joined with embedded quote characters doubled". -/
def specQuote (s : String) : String :=
  "\"" ++ ⟨s.data.flatMap (fun c => if c = '"' then ['"', '"'] else [c])⟩ ++ "\""

/-- Spec-side serializer, following §4.5 of the spec word for word: the
byte-order marker, a header row of the field names, then one quoted,
comma-joined row per record. -/
def csvSpecOutput (fields : List String) (rows : List (List String)) : String :=
  bomStr ++
    joinSep "\n" (joinSep "," fields :: rows.map (fun vs => joinSep "," (vs.map specQuote)))

/-! ### A standard delimited-text reader

Used for the round-trip claim: a character-level state machine that
understands quoted fields, doubled-quote escapes, and literal commas and
newlines inside quoted fields.  At end of input the pending field and row
are emitted (the exporter writes no trailing newline). -/

/-- State machine: `inQ` is true inside a quoted field, `f` is the current
field, `row` the fields finished so far in the current row.  Inside quotes,
a doubled quote is an escaped quote and a single quote closes the field;
outside quotes, a quote at the start of a field opens a quoted field, a
comma ends the field and a newline ends the row; everything else is
accumulated literally. -/
def rowsOf : List Char → Bool → List Char → List (List Char) →
    List (List (List Char))
  | [], _, f, row => [row ++ [f]]
  | c :: r2, inQ, f, row =>
    if inQ then
      if c = '"' then
        match r2 with
        | '"' :: r3 => rowsOf r3 true (f ++ ['"']) row
        | r2' => rowsOf r2' false f row
      else rowsOf r2 true (f ++ [c]) row
    else
      if c = '"' then
        if f = [] then rowsOf r2 true f row else rowsOf r2 false (f ++ ['"']) row
      else if c = ',' then rowsOf r2 false [] (row ++ [f])
      else if c = '\n' then (row ++ [f]) :: rowsOf r2 false [] []
      else rowsOf r2 false (f ++ [c]) row
termination_by l _ _ _ => l.length
decreasing_by all_goals (simp only [List.length_cons]; omega)

/-- Strip a leading byte-order marker. -/
def stripBOM : List Char → List Char
  | '﻿' :: r => r
  | l => l

/-- The standard reader: strip the BOM and run the state machine from the
initial state. -/
def csvParse (s : String) : List (List String) :=
  (rowsOf (stripBOM s.data) false [] []).map (fun row => row.map (⟨·⟩))

/-! ### Concrete instances used by counterexamples and witnesses -/

def quoteChars (v : List Char) : List Char :=
  '"' :: (escChars v ++ ['"'])

def quotedRowChars : List (List Char) → List Char
  | [] => []
  | [v] => quoteChars v
  | v :: vs => quoteChars v ++ ',' :: quotedRowChars vs

def headerChars : List (List Char) → List Char
  | [] => []
  | [n] => n
  | n :: ns => n ++ ',' :: headerChars ns

abbrev simpleChars (l : List Char) : Prop :=
  ∀ c ∈ l, c ≠ '"' ∧ c ≠ ',' ∧ c ≠ '\n'

abbrev simpleField (s : String) : Prop := simpleChars s.data

def witC8data : List CSVRecord :=
  [[("name", "a\"b"), ("views", "10")], [("name", "c"), ("views", "2")]]

def witC9r1 : CSVRecord := [("name", "a\"b"), ("views", "10")]

def witC9r2 : CSVRecord := [("name", "x,y"), ("views", "2")]

/-- Environment for C2's zero-subscriber example: one search hit, one
channel with 0 subscribers, the representative video has 1000 views. -/
def envC2zero : RisingEnv :=
  { now := 0
    searchItems := [⟨"c1", "v1"⟩]
    channelItems := [⟨"c1", "Rising", 0, 0, 3, 10⟩]
    videoItems := [⟨"v1", "Hit", 0, "c1", 1000, 1, 1, "PT1M"⟩] }

/-- Environment for C2's 10000-subscriber example. -/
def envC2subs : RisingEnv :=
  { now := 0
    searchItems := [⟨"c1", "v1"⟩]
    channelItems := [⟨"c1", "Rising", 0, 10000, 3, 10⟩]
    videoItems := [⟨"v1", "Hit", 0, "c1", 1000, 1, 1, "PT1M"⟩] }

def witC2video : YouTubeVideo := ⟨"v1", "Hit", 0, "c1", 1000, 1, 1, "PT1M"⟩

def witC2chan : ChannelItem := ⟨"c1", "Rising", 0, 0, 3, 10⟩

def witC2res : RisingChannelResult :=
  { details := ⟨"c1", "Rising", 0, 1, 3, 10⟩
    topVideo := witC2video
    topVideoViews := 1000
    score := 1000 }

/-- Counterexample env for C5, part (a): a channel created one millisecond
before the epoch (1969-12-31T23:59:59.999Z) whose representative video
resolves, under the unbounded window. -/
def envC5pre1970 : RisingEnv :=
  { now := 86400000000
    searchItems := [⟨"old", "v1"⟩]
    channelItems := [⟨"old", "OldChan", -1, 5, 3, 10⟩]
    videoItems := [⟨"v1", "T", 0, "old", 1000, 1, 1, "PT1M"⟩] }

/-- Counterexample env for C5, part (b): a channel created at `now`
(well after the 3-month cutoff) whose representative video is missing from
the video-batch response. -/
def envC5noVid : RisingEnv :=
  { now := 86400000000
    searchItems := [⟨"new", "v1"⟩]
    channelItems := [⟨"new", "NewChan", 86400000000, 5, 3, 10⟩]
    videoItems := [] }

/-- Witness env for C5: one fresh channel created at the cutoff instant
whose video resolves, under the 3-month window. -/
def envC5wit : RisingEnv :=
  { now := 86400000000
    searchItems := [⟨"w", "v9"⟩]
    channelItems := [⟨"w", "WitChan", 86400000000, 7, 3, 10⟩]
    videoItems := [⟨"v9", "T", 0, "w", 500, 1, 1, "PT1M"⟩] }

def witC5chan : ChannelItem := ⟨"w", "WitChan", 86400000000, 7, 3, 10⟩

/-- Env for C7's witness: empty search response. -/
def envC7empty : RisingEnv :=
  { now := 0, searchItems := [], channelItems := [], videoItems := [] }

/-- Env for C7's witness: one channel whose id appears among the first 40
collected channel ids. -/
def envC7wit : RisingEnv :=
  { now := 86400000000
    searchItems := [⟨"k", "v1"⟩, ⟨"k", "v2"⟩]
    channelItems := [⟨"k", "KChan", 86400000000, 7, 3, 10⟩]
    videoItems := [⟨"v1", "T", 0, "k", 500, 1, 1, "PT1M"⟩] }

/-- The single-element collection on which claim C1 fails as stated: the
video holds the collection maxima in all three categories (its like count
equals the like maximum 0) but scores 70, not 100. -/
def cexVideoC1 : YouTubeVideo :=
  { id := "a", title := "t", publishedAt := 0, channelId := "c",
    viewCount := 10, likeCount := 0, commentCount := 10, duration := "PT10S" }

/-- The video used to witness C1's amended statement. -/
def witVideoC1 : YouTubeVideo :=
  { id := "a", title := "t", publishedAt := 0, channelId := "c",
    viewCount := 10, likeCount := 5, commentCount := 2, duration := "PT10S" }

/-- The all-zero video used to witness C10. -/
def witVideoC10 : YouTubeVideo :=
  { id := "z", title := "t", publishedAt := 0, channelId := "c",
    viewCount := 0, likeCount := 0, commentCount := 0, duration := "PT10S" }

/-! ## Lemmas -/

section SortLemmas

variable {α : Type _} (le : α → α → Bool)

lemma mem_insertLe (x a : α) (l : List α) :
    a ∈ insertLe le x l ↔ a = x ∨ a ∈ l := by
  induction l with
  | nil => simp [insertLe]
  | cons y ys ih =>
    by_cases h : le x y = true
    · rw [insertLe, if_pos h]
      simp only [List.mem_cons]
    · rw [insertLe, if_neg h]
      simp only [List.mem_cons, ih]
      tauto

lemma insertLe_perm (x : α) (l : List α) :
    List.Perm (insertLe le x l) (x :: l) := by
  induction l with
  | nil => simp [insertLe]
  | cons y ys ih =>
    by_cases h : le x y = true
    · rw [insertLe, if_pos h]
    · rw [insertLe, if_neg h]
      exact (List.Perm.cons y ih).trans (List.Perm.swap x y ys)

lemma insertionSort_perm (l : List α) :
    List.Perm (insertionSort le l) l := by
  induction l with
  | nil => exact List.Perm.refl []
  | cons x xs ih =>
    exact (insertLe_perm le x (insertionSort le xs)).trans (List.Perm.cons x ih)

lemma pairwise_insertLe
    (trans : ∀ a b c : α, le a b = true → le b c = true → le a c = true)
    (total : ∀ a b : α, le a b = true ∨ le b a = true)
    (x : α) (l : List α) (h : l.Pairwise (fun a b => le a b = true)) :
    (insertLe le x l).Pairwise (fun a b => le a b = true) := by
  induction l with
  | nil => simp [insertLe]
  | cons y ys ih =>
    rcases List.pairwise_cons.mp h with ⟨hy, hys⟩
    by_cases hx : le x y = true
    · rw [insertLe, if_pos hx]
      refine List.pairwise_cons.mpr ⟨?_, h⟩
      intro z hz
      rcases List.mem_cons.mp hz with rfl | hz
      · exact hx
      · exact trans x y z hx (hy z hz)
    · rw [insertLe, if_neg hx]
      refine List.pairwise_cons.mpr ⟨?_, ih hys⟩
      intro z hz
      rcases (mem_insertLe le x z ys).mp hz with hzx | hz
      · rw [hzx]
        rcases total x y with h1 | h1
        · exact absurd h1 hx
        · exact h1
      · exact hy z hz

lemma sorted_insertionSort
    (trans : ∀ a b c : α, le a b = true → le b c = true → le a c = true)
    (total : ∀ a b : α, le a b = true ∨ le b a = true)
    (l : List α) :
    (insertionSort le l).Pairwise (fun a b => le a b = true) := by
  induction l with
  | nil => simp [insertionSort]
  | cons x xs ih => exact pairwise_insertLe le trans total x _ ih

lemma insertLe_of_head_le (x : α) (l : List α)
    (h : ∀ z, l.head? = some z → le x z = true) : insertLe le x l = x :: l := by
  cases l with
  | nil => rfl
  | cons y ys => rw [insertLe, if_pos (h y rfl)]

lemma filter_insertLe_neg (p : α → Bool) (x : α) (l : List α)
    (hx : p x = false) :
    (insertLe le x l).filter p = l.filter p := by
  induction l with
  | nil => simp [insertLe, hx]
  | cons y ys ih =>
    by_cases h : le x y = true
    · rw [insertLe, if_pos h]
      simp [List.filter_cons, hx]
    · rw [insertLe, if_neg h]
      simp [List.filter_cons, ih]

lemma filter_insertLe_pos
    (trans : ∀ a b c : α, le a b = true → le b c = true → le a c = true)
    (p : α → Bool) (x : α) (l : List α)
    (hs : l.Pairwise (fun a b => le a b = true)) (hx : p x = true) :
    (insertLe le x l).filter p = insertLe le x (l.filter p) := by
  induction l with
  | nil => simp [insertLe, hx]
  | cons y ys ih =>
    rcases List.pairwise_cons.mp hs with ⟨hy, hys⟩
    by_cases h : le x y = true
    · rw [insertLe, if_pos h]
      by_cases hpy : p y = true
      · simp only [List.filter_cons, hx, hpy, if_pos, ite_true]
        rw [insertLe, if_pos h]
      · simp only [List.filter_cons, hx, hpy, ite_true, ite_false, Bool.false_eq_true]
        rw [insertLe_of_head_le]
        intro z hz
        have hzmem : z ∈ ys.filter p := List.mem_of_mem_head? (by rw [hz]; rfl)
        exact trans x y z h (hy z (List.mem_of_mem_filter hzmem))
    · rw [insertLe, if_neg h]
      by_cases hpy : p y = true
      · simp only [List.filter_cons, hpy, ite_true]
        rw [insertLe, if_neg h, ih hys]
      · simp only [List.filter_cons, hpy, ite_false, Bool.false_eq_true]
        exact ih hys

lemma filter_insertionSort
    (trans : ∀ a b c : α, le a b = true → le b c = true → le a c = true)
    (total : ∀ a b : α, le a b = true ∨ le b a = true)
    (p : α → Bool) (l : List α) :
    (insertionSort le l).filter p = insertionSort le (l.filter p) := by
  induction l with
  | nil => rfl
  | cons x xs ih =>
    by_cases hx : p x = true
    · rw [insertionSort, List.filter_cons_of_pos hx, insertionSort,
          filter_insertLe_pos le trans p x _
            (sorted_insertionSort le trans total xs) hx, ih]
    · rw [insertionSort, List.filter_cons_of_neg (by simp_all),
          filter_insertLe_neg le p x _ (by simp_all), ih]

end SortLemmas

lemma le_foldr_max {l : List Nat} {x : Nat} (h : x ∈ l) : x ≤ l.foldr max 0 := by
  induction l with
  | nil => cases h
  | cons a t ih =>
    rcases List.mem_cons.mp h with rfl | hx
    · exact le_max_left _ _
    · exact le_trans (ih hx) (le_max_right _ _)

lemma round_nonneg_q {x : ℚ} (h : 0 ≤ x) : 0 ≤ round x := by
  rw [round_eq]
  exact Int.le_floor.mpr (by push_cast; linarith)

lemma round_le_100_q {x : ℚ} (h : x ≤ 100) : round x ≤ 100 := by
  rw [round_eq]
  have : ⌊x + 1 / 2⌋ < 101 := Int.floor_lt.mpr (by push_cast; linarith)
  omega

lemma calculateVideoScore_bounds (v : YouTubeVideo) (mv ml mc : Nat)
    (hv : v.viewCount ≤ mv) (hl : v.likeCount ≤ ml) (hc : v.commentCount ≤ mc) :
    0 ≤ calculateVideoScore v mv ml mc ∧ calculateVideoScore v mv ml mc ≤ 100 := by
  unfold calculateVideoScore
  have hcomp : ∀ (x m : Nat) (w : ℚ), x ≤ m → 0 ≤ w →
      0 ≤ (if m = 0 then 0 else ((x : ℚ) / m) * w) ∧
      (if m = 0 then 0 else ((x : ℚ) / m) * w) ≤ w := by
    intro x m w hxm hw
    split
    · exact ⟨le_refl 0, hw⟩
    · rename_i hm
      have hmq : (0 : ℚ) < m := by
        exact_mod_cast Nat.pos_of_ne_zero hm
      have h1 : (x : ℚ) / m ≤ 1 := by
        rw [div_le_one hmq]; exact_mod_cast hxm
      constructor
      · positivity
      · calc (x : ℚ) / m * w ≤ 1 * w := mul_le_mul_of_nonneg_right h1 hw
        _ = w := one_mul w
  obtain ⟨h1a, h1b⟩ := hcomp v.viewCount mv 50 hv (by norm_num)
  obtain ⟨h2a, h2b⟩ := hcomp v.likeCount ml 30 hl (by norm_num)
  obtain ⟨h3a, h3b⟩ := hcomp v.commentCount mc 20 hc (by norm_num)
  exact ⟨round_nonneg_q (by linarith), round_le_100_q (by linarith)⟩

lemma calculateVideoScore_max (v : YouTubeVideo) (mv ml mc : Nat)
    (hv : v.viewCount = mv) (hl : v.likeCount = ml) (hc : v.commentCount = mc)
    (hv0 : 0 < mv) (hl0 : 0 < ml) (hc0 : 0 < mc) :
    calculateVideoScore v mv ml mc = 100 := by
  unfold calculateVideoScore
  rw [hv, hl, hc]
  rw [if_neg (Nat.pos_iff_ne_zero.mp hv0), if_neg (Nat.pos_iff_ne_zero.mp hl0),
      if_neg (Nat.pos_iff_ne_zero.mp hc0)]
  have dv : ((mv : ℚ) / mv) = 1 := div_self (by exact_mod_cast Nat.pos_iff_ne_zero.mp hv0)
  have dl : ((ml : ℚ) / ml) = 1 := div_self (by exact_mod_cast Nat.pos_iff_ne_zero.mp hl0)
  have dc : ((mc : ℚ) / mc) = 1 := div_self (by exact_mod_cast Nat.pos_iff_ne_zero.mp hc0)
  rw [dv, dl, dc]
  norm_num [round_eq]

lemma containsPT_cons_step (c : Char) (rest : List Char)
    (hne : ∀ r : List Char, c = 'P' → rest = 'T' :: r → False) :
    containsPT (c :: rest) = containsPT rest := by
  rw [containsPT.eq_def]
  split
  · rename_i heq; cases heq
  · rename_i r heq
    injection heq with h1 h2
    exact (hne r h1 h2).elim
  · rename_i x hd tl hcond heq
    injection heq with h1 h2
    subst h1; subst h2
    rfl

lemma afterPT_cons_step (c : Char) (rest : List Char)
    (hne : ∀ r : List Char, c = 'P' → rest = 'T' :: r → False) :
    afterPT (c :: rest) = afterPT rest := by
  rw [afterPT.eq_def]
  split
  · rename_i heq; cases heq
  · rename_i r heq
    injection heq with h1 h2
    exact (hne r h1 h2).elim
  · rename_i x hd tl hcond heq
    injection heq with h1 h2
    subst h1; subst h2
    rfl

lemma afterPT_eq_none_of_not_containsPT :
    ∀ l : List Char, containsPT l = false → afterPT l = none := by
  intro l
  induction l using containsPT.induct with
  | case1 => intro _; rfl
  | case2 rest => intro h; simp [containsPT] at h
  | case3 c rest hne ih =>
    intro h
    rw [containsPT_cons_step c rest hne] at h
    rw [afterPT_cons_step c rest hne]
    exact ih h

lemma containsPT_iff_substring : ∀ l : List Char, containsPT l = true ↔ ['P', 'T'] <:+: l := by
  intro l
  induction l using containsPT.induct with
  | case1 =>
    simp [containsPT]
  | case2 rest =>
    simp only [containsPT, true_iff]
    exact ⟨[], rest, rfl⟩
  | case3 c rest hne ih =>
    rw [containsPT_cons_step c rest hne, ih, List.infix_cons_iff]
    constructor
    · exact Or.inr
    · rintro (hp | hi)
      · rw [List.cons_prefix_cons] at hp
        obtain ⟨h1, t, ht⟩ := hp
        exact (hne t h1.symm ht.symm).elim
      · exact hi

lemma foldr_max_eq_zero {l : List Nat} (h : ∀ x ∈ l, x = 0) :
    l.foldr max 0 = 0 := by
  induction l with
  | nil => rfl
  | cons a t ih =>
    rw [List.foldr_cons, h a (List.mem_cons_self a t),
      ih (fun x hx => h x (List.mem_cons_of_mem a hx)), Nat.max_self]

lemma caLE_trans (s : CASortOption) :
    ∀ a b c : ScoredVideo, caLE s a b = true → caLE s b c = true → caLE s a c = true := by
  cases s <;> intro a b c h1 h2 <;>
    simp only [caLE, decide_eq_true_eq] at * <;> omega

lemma caLE_total (s : CASortOption) :
    ∀ a b : ScoredVideo, caLE s a b = true ∨ caLE s b a = true := by
  cases s <;> intro a b <;>
    simp only [caLE, decide_eq_true_eq] <;> omega

lemma kaLE_trans (s : KASortOption) :
    ∀ a b c : ScoredVideo, kaLE s a b = true → kaLE s b c = true → kaLE s a c = true := by
  cases s <;> intro a b c h1 h2 <;>
    simp only [kaLE, decide_eq_true_eq] at * <;> omega

lemma kaLE_total (s : KASortOption) :
    ∀ a b : ScoredVideo, kaLE s a b = true ∨ kaLE s b a = true := by
  cases s <;> intro a b <;>
    simp only [kaLE, decide_eq_true_eq] <;> omega

/-- **C4.** For every list of (scored) video records and every combination
of type filter and sort key, in both views, filtering then sorting equals
sorting then filtering. -/
theorem claim_C4_filter_sort_commute :
    (∀ (l : List ScoredVideo) (f : VideoTypeFilter) (s : CASortOption),
      caSortedVideos f s l = caFilter f (insertionSort (caLE s) l)) ∧
    (∀ (l : List ScoredVideo) (f : VideoTypeFilter) (s : KASortOption),
      kaProcessedVideos f s l = kaFilter f (insertionSort (kaLE s) l)) := by
  constructor
  · intro l f s
    cases f
    · rfl
    · exact (filter_insertionSort (caLE s) (caLE_trans s) (caLE_total s) _ l).symm
    · exact (filter_insertionSort (caLE s) (caLE_trans s) (caLE_total s) _ l).symm
  · intro l f s
    cases f
    · simp only [kaProcessedVideos, kaFilter, List.filter_true]
    · exact (filter_insertionSort (kaLE s) (kaLE_trans s) (kaLE_total s) _ l).symm
    · exact (filter_insertionSort (kaLE s) (kaLE_trans s) (kaLE_total s) _ l).symm

/-- **C3.** The duration parser maps "PT1H2M3S" to 3723, "PT45S" to 45,
"PT10M" to 600; an input containing no "PT" (so the regex cannot match)
yields 0; the result type is ℕ, so the result is always a non-negative
integer. -/
theorem claim_C3_duration_parsing :
    parseDuration "PT1H2M3S" = 3723 ∧
    parseDuration "PT45S" = 45 ∧
    parseDuration "PT10M" = 600 ∧
    (∀ s : String, ¬ (['P', 'T'] <:+: s.data) → parseDuration s = 0) := by
  refine ⟨by decide, by decide, by decide, ?_⟩
  intro s h
  have hc : containsPT s.data = false := by
    cases h' : containsPT s.data
    · rfl
    · exact absurd ((containsPT_iff_substring s.data).mp h') h
  unfold parseDuration
  rw [afterPT_eq_none_of_not_containsPT s.data hc]

/-- Witness for C3: the no-match branch evaluated at a concrete input. -/
theorem claim_C3_duration_parsing_witness :
    ¬ (['P', 'T'] <:+: "hello".data) ∧ parseDuration "hello" = 0 :=
  ⟨by decide, claim_C3_duration_parsing.2.2.2 "hello" (by decide)⟩

/-- **C1 as stated is false**: in the collection `[cexVideoC1]` the video's
view, like and comment counts are simultaneously the collection maxima,
yet its score is 70, not 100 (the like maximum is 0, so the like component
contributes 0 instead of 30). -/
theorem claim_C1_score_counterexample :
    cexVideoC1.viewCount = maxViewsOf [cexVideoC1] ∧
    cexVideoC1.likeCount = maxLikesOf [cexVideoC1] ∧
    cexVideoC1.commentCount = maxCommentsOf [cexVideoC1] ∧
    scoreIn [cexVideoC1] cexVideoC1 = 70 ∧
    scoreIn [cexVideoC1] cexVideoC1 ≠ 100 := by
  refine ⟨rfl, rfl, rfl, ?_, ?_⟩ <;>
    norm_num [scoreIn, maxViewsOf, maxLikesOf, maxCommentsOf, cexVideoC1,
      calculateVideoScore, round_eq]

/-- **C1, amended.** For every video of a non-empty collection the computed
popularity score is an integer in [0, 100]; an item whose view, like and
comment counts are simultaneously the collection maxima scores exactly 100
provided all three maxima are positive. -/
theorem claim_C1_score_range (vs : List YouTubeVideo) (v : YouTubeVideo)
    (_hne : vs ≠ []) (hv : v ∈ vs) :
    (0 ≤ scoreIn vs v ∧ scoreIn vs v ≤ 100) ∧
    (v.viewCount = maxViewsOf vs → v.likeCount = maxLikesOf vs →
     v.commentCount = maxCommentsOf vs →
     0 < maxViewsOf vs → 0 < maxLikesOf vs → 0 < maxCommentsOf vs →
     scoreIn vs v = 100) := by
  constructor
  · exact calculateVideoScore_bounds v _ _ _
      (le_foldr_max (List.mem_map_of_mem (·.viewCount) hv))
      (le_foldr_max (List.mem_map_of_mem (·.likeCount) hv))
      (le_foldr_max (List.mem_map_of_mem (·.commentCount) hv))
  · intro h1 h2 h3 h4 h5 h6
    exact calculateVideoScore_max v _ _ _ h1 h2 h3 h4 h5 h6

/-- Witness for C1: the amended theorem applied to the one-element
collection `[witVideoC1]`, whose maxima are all positive. -/
theorem claim_C1_score_range_witness :
    0 ≤ scoreIn [witVideoC1] witVideoC1 ∧
    scoreIn [witVideoC1] witVideoC1 ≤ 100 ∧
    scoreIn [witVideoC1] witVideoC1 = 100 := by
  have h := claim_C1_score_range [witVideoC1] witVideoC1
    (by simp) (List.mem_cons_self _ _)
  exact ⟨h.1.1, h.1.2, h.2 rfl rfl rfl (by decide) (by decide) (by decide)⟩

/-- **C10.** The scorer is total when a collection maximum is zero: with
all three maxima 0 every component contributes 0 (no division error), and
in an all-zero collection every computed score is 0. -/
theorem claim_C10_zero_maxima_total :
    (∀ u : YouTubeVideo, calculateVideoScore u 0 0 0 = 0) ∧
    (∀ (vs : List YouTubeVideo) (v : YouTubeVideo),
      (∀ w ∈ vs, w.viewCount = 0 ∧ w.likeCount = 0 ∧ w.commentCount = 0) →
      v ∈ vs → scoreIn vs v = 0) := by
  have base : ∀ u : YouTubeVideo, calculateVideoScore u 0 0 0 = 0 := by
    intro u
    norm_num [calculateVideoScore, round_eq]
  refine ⟨base, ?_⟩
  intro vs v hz hv
  have hmv : maxViewsOf vs = 0 :=
    foldr_max_eq_zero (by intro x hx; rcases List.mem_map.mp hx with ⟨w, hw, rfl⟩; exact (hz w hw).1)
  have hml : maxLikesOf vs = 0 :=
    foldr_max_eq_zero (by intro x hx; rcases List.mem_map.mp hx with ⟨w, hw, rfl⟩; exact (hz w hw).2.1)
  have hmc : maxCommentsOf vs = 0 :=
    foldr_max_eq_zero (by intro x hx; rcases List.mem_map.mp hx with ⟨w, hw, rfl⟩; exact (hz w hw).2.2)
  rw [scoreIn, hmv, hml, hmc]
  exact base v

/-- Witness for C10: an all-zero single-video collection scores 0. -/
theorem claim_C10_zero_maxima_total_witness :
    scoreIn [witVideoC10] witVideoC10 = 0 :=
  claim_C10_zero_maxima_total.2 [witVideoC10] witVideoC10
    (by intro w hw; rcases List.mem_singleton.mp hw with rfl; exact ⟨rfl, rfl, rfl⟩)
    (List.mem_cons_self _ _)

lemma collect_aux (items : List SearchItem) :
    ∀ (acc : List (String × String)) (c : String),
    ((items.foldl collectStep acc).find? (fun p => p.1 = c)) =
      match acc.find? (fun p => p.1 = c) with
      | some p => some p
      | none => (items.find? (fun it => it.channelId = c)).map
          (fun it => (it.channelId, it.videoId)) := by
  induction items with
  | nil =>
    intro acc c
    simp only [List.foldl_nil, List.find?_nil, Option.map_none]
    cases acc.find? (fun p => p.1 = c) <;> rfl
  | cons it rest ih =>
    intro acc c
    rw [List.foldl_cons, ih]
    have hstep : (collectStep acc it).find? (fun p => p.1 = c) =
        match acc.find? (fun p => p.1 = c) with
        | some p => some p
        | none => if it.channelId = c then some (it.channelId, it.videoId) else none := by
      unfold collectStep
      by_cases hany : acc.any (fun p => p.1 = it.channelId) = true
      · rw [if_pos hany]
        cases hf : acc.find? (fun p => p.1 = c) with
        | some p => rfl
        | none =>
          simp only
          by_cases hc : it.channelId = c
          · rcases List.any_eq_true.mp hany with ⟨p, hp, hp1⟩
            rw [List.find?_eq_none] at hf
            exact absurd (by rw [decide_eq_true_eq] at hp1 ⊢; rw [hp1, hc])
              (hf p hp)
          · rw [if_neg hc]
      · rw [if_neg hany, List.find?_append]
        cases hf : acc.find? (fun p => p.1 = c) with
        | some p => rfl
        | none =>
          simp only [Option.none_or]
          by_cases hc : it.channelId = c
          · rw [List.find?_cons_of_pos _ (by simpa using hc), if_pos hc]
          · rw [List.find?_cons_of_neg _ (by simpa using hc), if_neg hc, List.find?_nil]
    rw [hstep]
    cases hf : acc.find? (fun p => p.1 = c) with
    | some p => rfl
    | none =>
      simp only
      by_cases hc : it.channelId = c
      · rw [if_pos hc, List.find?_cons_of_pos _ (by simpa using hc)]
        rfl
      · rw [if_neg hc, List.find?_cons_of_neg _ (by simpa using hc)]

lemma collect_find (items : List SearchItem) (c : String) :
    (collectChannels items).find? (fun p => p.1 = c) =
      (items.find? (fun it => it.channelId = c)).map
        (fun it => (it.channelId, it.videoId)) := by
  rw [collectChannels, collect_aux items [] c]
  rfl

lemma collect_nodup_aux (items : List SearchItem) :
    ∀ acc : List (String × String), (acc.map Prod.fst).Nodup →
    ((items.foldl collectStep acc).map Prod.fst).Nodup := by
  induction items with
  | nil => intro acc h; simpa using h
  | cons it rest ih =>
    intro acc h
    rw [List.foldl_cons]
    apply ih
    unfold collectStep
    by_cases hany : acc.any (fun p => p.1 = it.channelId) = true
    · rw [if_pos hany]; exact h
    · rw [if_neg hany, List.map_append]
      refine List.nodup_append.mpr ⟨h, List.nodup_singleton _, ?_⟩
      intro a ha hb
      rcases List.mem_singleton.mp hb with rfl
      rcases List.mem_map.mp ha with ⟨p, hp, hp1⟩
      exact hany (List.any_eq_true.mpr ⟨p, hp, by simpa using hp1⟩)

lemma collect_keys_nodup (items : List SearchItem) :
    ((collectChannels items).map Prod.fst).Nodup :=
  collect_nodup_aux items [] (by simp)

lemma subCount_eq_max (n : Nat) : (if n = 0 then 1 else n) = max n 1 := by
  by_cases h0 : n = 0
  · simp [h0]
  · rw [if_neg h0, Nat.max_eq_left (by omega)]

lemma processChannel_some_spec {cutoff : Int} {collected : List (String × String)}
    {videos : List YouTubeVideo} {c : ChannelItem} {r : RisingChannelResult}
    (h : processChannel cutoff collected videos c = some r) :
    cutoff ≤ c.publishedAt ∧
    r.details.id = c.id ∧
    r.details.subscriberCount = max c.subscriberCount 1 ∧
    r.topVideoViews = r.topVideo.viewCount ∧
    r.score = (r.topVideo.viewCount : ℚ) / (max c.subscriberCount 1) ∧
    (collected.find? (fun p => p.1 = c.id)).map Prod.snd = some r.topVideo.id ∧
    lookupVideoDetail videos r.topVideo.id = some r.topVideo := by
  unfold processChannel at h
  by_cases hcut : cutoff ≤ c.publishedAt
  · rw [if_pos hcut] at h
    cases hfind : (collected.find? (fun p => p.1 = c.id)).map Prod.snd with
    | none => rw [hfind] at h; cases h
    | some vid =>
      rw [hfind] at h
      simp only at h
      cases hlook : lookupVideoDetail videos vid with
      | none => rw [hlook] at h; cases h
      | some fullVideo =>
        rw [hlook] at h
        simp only [Option.some.injEq] at h
        subst h
        have hid : fullVideo.id = vid := by
          have := List.find?_some hlook
          simpa using this
        refine ⟨hcut, rfl, by simpa using subCount_eq_max c.subscriberCount,
          rfl, ?_, ?_, ?_⟩
        · show (if 0 < (if c.subscriberCount = 0 then 1 else c.subscriberCount)
              then (fullVideo.viewCount : ℚ) /
                (if c.subscriberCount = 0 then 1 else c.subscriberCount)
              else 0) = (fullVideo.viewCount : ℚ) / (max c.subscriberCount 1)
          rw [subCount_eq_max c.subscriberCount,
            if_pos (by omega : 0 < max c.subscriberCount 1)]
        · show some vid = some fullVideo.id
          rw [hid]
        · show lookupVideoDetail videos fullVideo.id = some fullVideo
          rw [hid, hlook]
  · rw [if_neg hcut] at h
    cases h

lemma processChannel_isSome_iff (cutoff : Int) (collected : List (String × String))
    (videos : List YouTubeVideo) (c : ChannelItem) :
    (processChannel cutoff collected videos c).isSome = true ↔
      (cutoff ≤ c.publishedAt ∧
        ∃ vid, (collected.find? (fun p => p.1 = c.id)).map Prod.snd = some vid ∧
          (lookupVideoDetail videos vid).isSome = true) := by
  unfold processChannel
  by_cases hcut : cutoff ≤ c.publishedAt
  · rw [if_pos hcut]
    cases hfind : (collected.find? (fun p => p.1 = c.id)).map Prod.snd with
    | none => simp [hcut]
    | some vid =>
      simp only
      cases hlook : lookupVideoDetail videos vid with
      | none => simp [hlook, hcut]
      | some fullVideo => simp [hlook, hcut]
  · rw [if_neg hcut]
    simp [hcut]

lemma mem_results_iff (env : RisingEnv) (period : RisingPeriod)
    (hne : ¬ (((collectChannels env.searchItems).map Prod.fst).take 40).isEmpty = true)
    (r : RisingChannelResult) :
    r ∈ (findRisingChannels env period).results ↔
      ∃ c ∈ env.channelItems,
        processChannel (channelCreationCutoff env.now period)
          (collectChannels env.searchItems) env.videoItems c = some r := by
  simp only [findRisingChannels]
  rw [if_neg hne]
  simp only
  rw [(insertionSort_perm _ _).mem_iff]
  exact List.mem_filterMap

/-- **C2.** Every emitted rising-channel result's score is its
representative video's view count divided by `max(subscriber count, 1)`
(both against the raw channel item and against the stored clamped count),
and the two concrete examples: 0 subscribers with a 1000-view video scores
1000; 10000 subscribers with the same video scores 1/10. -/
theorem claim_C2_virality_score :
    (∀ (cutoff : Int) (collected : List (String × String))
        (videos : List YouTubeVideo) (c : ChannelItem) (r : RisingChannelResult),
      processChannel cutoff collected videos c = some r →
      r.score = (r.topVideoViews : ℚ) / (max c.subscriberCount 1)) ∧
    (∀ (env : RisingEnv) (period : RisingPeriod) (r : RisingChannelResult),
      r ∈ (findRisingChannels env period).results →
      r.score = (r.topVideoViews : ℚ) / (max r.details.subscriberCount 1)) ∧
    (findRisingChannels envC2zero .all).results.map (·.score) = [1000] ∧
    (findRisingChannels envC2subs .all).results.map (·.score) = [1 / 10] := by
  have part1 : ∀ (cutoff : Int) (collected : List (String × String))
      (videos : List YouTubeVideo) (c : ChannelItem) (r : RisingChannelResult),
      processChannel cutoff collected videos c = some r →
      r.score = (r.topVideoViews : ℚ) / (max c.subscriberCount 1) := by
    intro cutoff collected videos c r h
    obtain ⟨-, -, -, hviews, hscore, -, -⟩ := processChannel_some_spec h
    rw [hviews, hscore]
  refine ⟨part1, ?_, ?_, ?_⟩
  · intro env period r hr
    simp only [findRisingChannels] at hr
    by_cases hne : (((collectChannels env.searchItems).map Prod.fst).take 40).isEmpty = true
    · rw [if_pos hne] at hr
      cases hr
    · rw [if_neg hne] at hr
      simp only at hr
      rw [(insertionSort_perm _ _).mem_iff] at hr
      rcases List.mem_filterMap.mp hr with ⟨c, hc, hsome⟩
      obtain ⟨-, -, hsub, -, -, -, -⟩ := processChannel_some_spec hsome
      rw [part1 _ _ _ c r hsome, hsub,
        Nat.max_eq_left (Nat.le_max_right c.subscriberCount 1)]
  · norm_num [findRisingChannels, collectChannels, collectStep, processChannel,
      lookupVideoDetail, insertionSort, insertLe, channelCreationCutoff,
      msPerDay, envC2zero]
  · norm_num [findRisingChannels, collectChannels, collectStep, processChannel,
      lookupVideoDetail, insertionSort, insertLe, channelCreationCutoff,
      msPerDay, envC2subs]

/-- Witness for C2: the score formula applied to a concrete loop-body run. -/
theorem claim_C2_virality_score_witness :
    processChannel 0 [("c1", "v1")] [witC2video] witC2chan = some witC2res ∧
    witC2res.score = (witC2res.topVideoViews : ℚ) / (max witC2chan.subscriberCount 1) := by
  have h : processChannel 0 [("c1", "v1")] [witC2video] witC2chan = some witC2res := by
    norm_num [processChannel, lookupVideoDetail, witC2video, witC2chan, witC2res]
  exact ⟨h, claim_C2_virality_score.1 0 _ _ witC2chan witC2res h⟩

/-- **C6.** Every result list produced by the aggregator is sorted
non-increasing by score. -/
theorem claim_C6_sorted_by_score (env : RisingEnv) (period : RisingPeriod) :
    (findRisingChannels env period).results.Pairwise
      (fun a b => b.score ≤ a.score) := by
  simp only [findRisingChannels]
  split
  · exact List.Pairwise.nil
  · refine List.Pairwise.imp (fun h => ?_)
      (sorted_insertionSort _ ?_ ?_ _)
    · exact decide_eq_true_eq.mp h
    · intro a b c h1 h2
      simp only [decide_eq_true_eq] at *
      exact le_trans h2 h1
    · intro a b
      rcases le_total b.score a.score with h | h
      · exact Or.inl (decide_eq_true_eq.mpr h)
      · exact Or.inr (decide_eq_true_eq.mpr h)

/-- **C5 as stated is false** on two counts.  (a) The unbounded window's
cutoff is the epoch (`new Date(0)`), not minus infinity: a channel with
creation timestamp −1 ms is excluded by age.  (b) The "kept if created
on/after the cutoff" direction fails when the representative video's
details did not resolve: a channel created at `now` under the 3-month
window is dropped when the video-batch response lacks its video. -/
theorem claim_C5_age_window_counterexample :
    ((findRisingChannels envC5pre1970 .all).results = [] ∧
      envC5pre1970.channelItems.map (·.publishedAt) = [-1] ∧
      envC5pre1970.searchItems ≠ [] ∧
      (lookupVideoDetail envC5pre1970.videoItems "v1").isSome = true) ∧
    ((findRisingChannels envC5noVid .m3).results = [] ∧
      envC5noVid.channelItems.map (·.publishedAt) = [envC5noVid.now] ∧
      channelCreationCutoff envC5noVid.now .m3 ≤ envC5noVid.now) := by
  refine ⟨⟨?_, by decide, by decide, by decide⟩, ⟨?_, by decide, by decide⟩⟩
  · decide
  · decide

/-- **C5, amended.** The 3-month cutoff is `now − 90` days (so a channel
created 91 days before `now` fails the cutoff test and one created 89 days
before passes it); the unbounded window's cutoff is the epoch; and a
channel item of the batch response is kept if and only if its creation
timestamp is on/after the cutoff *and* its representative video's details
resolved. -/
theorem claim_C5_age_window :
    (∀ now : Int,
      channelCreationCutoff now .m3 = now - 90 * msPerDay ∧
      channelCreationCutoff now .all = 0 ∧
      channelCreationCutoff now .m3 ≤ now - 89 * msPerDay ∧
      ¬ (channelCreationCutoff now .m3 ≤ now - 91 * msPerDay)) ∧
    (∀ (cutoff : Int) (collected : List (String × String))
        (videos : List YouTubeVideo) (c : ChannelItem),
      (processChannel cutoff collected videos c).isSome = true ↔
        (cutoff ≤ c.publishedAt ∧
          ∃ vid, (collected.find? (fun p => p.1 = c.id)).map Prod.snd = some vid ∧
            (lookupVideoDetail videos vid).isSome = true)) ∧
    (∀ (env : RisingEnv) (period : RisingPeriod) (c : ChannelItem),
      c ∈ env.channelItems →
      ¬ (((collectChannels env.searchItems).map Prod.fst).take 40).isEmpty = true →
      ((∃ r ∈ (findRisingChannels env period).results,
          processChannel (channelCreationCutoff env.now period)
            (collectChannels env.searchItems) env.videoItems c = some r) ↔
        (processChannel (channelCreationCutoff env.now period)
          (collectChannels env.searchItems) env.videoItems c).isSome = true)) := by
  refine ⟨?_, processChannel_isSome_iff, ?_⟩
  · intro now
    refine ⟨rfl, rfl, ?_, ?_⟩ <;> simp [channelCreationCutoff, msPerDay] <;> omega
  · intro env period c hc hne
    constructor
    · rintro ⟨r, -, hr⟩
      rw [hr]
      rfl
    · intro hs
      rcases Option.isSome_iff_exists.mp hs with ⟨r, hr⟩
      exact ⟨r, (mem_results_iff env period hne r).mpr ⟨c, hc, hr⟩, hr⟩

/-- Witness for C5: the kept-iff equivalence evaluated on `envC5wit`. -/
theorem claim_C5_age_window_witness :
    (processChannel (channelCreationCutoff envC5wit.now .m3)
        (collectChannels envC5wit.searchItems) envC5wit.videoItems witC5chan).isSome = true ∧
    ∃ r ∈ (findRisingChannels envC5wit .m3).results,
      processChannel (channelCreationCutoff envC5wit.now .m3)
        (collectChannels envC5wit.searchItems) envC5wit.videoItems witC5chan = some r := by
  have h := claim_C5_age_window.2.2 envC5wit .m3 witC5chan (by decide) (by decide)
  have hs : (processChannel (channelCreationCutoff envC5wit.now .m3)
      (collectChannels envC5wit.searchItems) envC5wit.videoItems witC5chan).isSome = true := by
    decide
  exact ⟨hs, h.mpr hs⟩

lemma filterMap_map_sublist {α β γ : Type _} (g : α → Option β) (h : α → γ)
    (f : β → γ) (H : ∀ a b, g a = some b → f b = h a) :
    ∀ l : List α, ((l.filterMap g).map f).Sublist (l.map h) := by
  intro l
  induction l with
  | nil => exact List.Sublist.refl []
  | cons a t ih =>
    cases hg : g a with
    | none =>
      rw [List.filterMap_cons_none hg, List.map_cons]
      exact ih.cons (h a)
    | some b =>
      rw [List.filterMap_cons_some hg, List.map_cons, List.map_cons, H a b hg]
      exact ih.cons₂ (h a)

/-- **C7.** Zero search results give an empty outcome with no downstream
calls; every result's representative video is the first-seen search result
of its channel; and — whenever the channel-batch response answers the
request (one item per requested id, ids among the ≤ 40 requested) — the
output has at most 40 elements with pairwise-distinct channel ids. -/
theorem claim_C7_first_seen_cap :
    (∀ (env : RisingEnv) (period : RisingPeriod), env.searchItems = [] →
      findRisingChannels env period = ⟨[], 0⟩) ∧
    (∀ (env : RisingEnv) (period : RisingPeriod) (r : RisingChannelResult),
      r ∈ (findRisingChannels env period).results →
      (env.searchItems.find? (fun it => it.channelId = r.details.id)).map
          (·.videoId) = some r.topVideo.id) ∧
    (∀ (env : RisingEnv) (period : RisingPeriod),
      (env.channelItems.map (·.id)).Nodup →
      (∀ c ∈ env.channelItems,
        c.id ∈ ((collectChannels env.searchItems).map Prod.fst).take 40) →
      (findRisingChannels env period).results.length ≤ 40 ∧
      ((findRisingChannels env period).results.map (·.details.id)).Nodup) := by
  refine ⟨?_, ?_, ?_⟩
  · intro env period h
    simp [findRisingChannels, collectChannels, h]
  · intro env period r hr
    simp only [findRisingChannels] at hr
    by_cases hne : (((collectChannels env.searchItems).map Prod.fst).take 40).isEmpty = true
    · rw [if_pos hne] at hr
      cases hr
    · rw [if_neg hne] at hr
      simp only at hr
      rw [(insertionSort_perm _ _).mem_iff] at hr
      rcases List.mem_filterMap.mp hr with ⟨c, hc, hsome⟩
      obtain ⟨-, hid, -, -, -, hfirst, -⟩ := processChannel_some_spec hsome
      rw [hid]
      rw [collect_find env.searchItems c.id, Option.map_map] at hfirst
      exact hfirst
  · intro env period hnodup hsub
    by_cases hne : (((collectChannels env.searchItems).map Prod.fst).take 40).isEmpty = true
    · simp only [findRisingChannels, if_pos hne]
      exact ⟨by simp, by simp⟩
    · simp only [findRisingChannels, if_neg hne]
      have hperm := insertionSort_perm
        (fun a b : RisingChannelResult => decide (b.score ≤ a.score))
        (env.channelItems.filterMap
          (processChannel (channelCreationCutoff env.now period)
            (collectChannels env.searchItems) env.videoItems))
      constructor
      · rw [hperm.length_eq]
        calc (env.channelItems.filterMap _).length
            ≤ env.channelItems.length := List.length_filterMap_le _ _
          _ = (env.channelItems.map (·.id)).length := (List.length_map _ _).symm
          _ ≤ (((collectChannels env.searchItems).map Prod.fst).take 40).length :=
              (List.subperm_of_subset hnodup (by
                intro a ha
                rcases List.mem_map.mp ha with ⟨c, hc, rfl⟩
                exact hsub c hc)).length_le
          _ ≤ 40 := List.length_take_le _ _
      · rw [(hperm.map (·.details.id)).nodup_iff]
        refine List.Nodup.sublist ?_ hnodup
        exact filterMap_map_sublist _ _ _
          (fun c r h => (processChannel_some_spec h).2.1) env.channelItems

/-- Witness for C7: the empty-search case and the cap/dedup bounds
evaluated on concrete environments. -/
theorem claim_C7_first_seen_cap_witness :
    findRisingChannels envC7empty .m3 = ⟨[], 0⟩ ∧
    (findRisingChannels envC7wit .m3).results.length ≤ 40 ∧
    ((findRisingChannels envC7wit .m3).results.map (·.details.id)).Nodup := by
  have h3 := claim_C7_first_seen_cap.2.2 envC7wit .m3 (by decide) (by decide)
  exact ⟨claim_C7_first_seen_cap.1 envC7empty .m3 rfl, h3.1, h3.2⟩

lemma escChars_quote (cs : List Char) :
    escChars ('"' :: cs) = '"' :: '"' :: escChars cs := rfl

lemma escChars_other (c : Char) (cs : List Char) (h : c ≠ '"') :
    escChars (c :: cs) = c :: escChars cs := by
  rw [escChars.eq_def]
  split
  · rename_i heq; cases heq
  · rename_i heq
    injection heq with h1 h2
    exact absurd h1 h
  · rename_i x c2 cs2 hcond heq
    injection heq with h1 h2
    subst h1; subst h2
    rfl

lemma rowsOf_nil (q : Bool) (f : List Char) (row : List (List Char)) :
    rowsOf [] q f row = [row ++ [f]] := by
  rw [rowsOf.eq_def]

lemma rowsOf_inQ_qq (r3 f : List Char) (row : List (List Char)) :
    rowsOf ('"' :: '"' :: r3) true f row = rowsOf r3 true (f ++ ['"']) row := by
  rw [rowsOf.eq_def]
  simp

lemma rowsOf_inQ_close (r2 f : List Char) (row : List (List Char))
    (h : ∀ r3, r2 ≠ '"' :: r3) :
    rowsOf ('"' :: r2) true f row = rowsOf r2 false f row := by
  rw [rowsOf.eq_def]
  simp only [if_true, if_pos rfl]

lemma rowsOf_inQ_other (c : Char) (r2 f : List Char) (row : List (List Char))
    (h : c ≠ '"') :
    rowsOf (c :: r2) true f row = rowsOf r2 true (f ++ [c]) row := by
  rw [rowsOf.eq_def]
  simp [h]

lemma rowsOf_open (r2 : List Char) (row : List (List Char)) :
    rowsOf ('"' :: r2) false [] row = rowsOf r2 true [] row := by
  rw [rowsOf.eq_def]
  simp

lemma rowsOf_comma (r2 f : List Char) (row : List (List Char)) :
    rowsOf (',' :: r2) false f row = rowsOf r2 false [] (row ++ [f]) := by
  rw [rowsOf.eq_def]
  simp

lemma rowsOf_newline (r2 f : List Char) (row : List (List Char)) :
    rowsOf ('\n' :: r2) false f row = (row ++ [f]) :: rowsOf r2 false [] [] := by
  rw [rowsOf.eq_def]
  simp

lemma rowsOf_other (c : Char) (r2 f : List Char) (row : List (List Char))
    (h1 : c ≠ '"') (h2 : c ≠ ',') (h3 : c ≠ '\n') :
    rowsOf (c :: r2) false f row = rowsOf r2 false (f ++ [c]) row := by
  rw [rowsOf.eq_def]
  simp [h1, h2, h3]

lemma rowsOf_escape : ∀ (v r2 f : List Char) (row : List (List Char)),
    (∀ r3, r2 ≠ '"' :: r3) →
    rowsOf (escChars v ++ '"' :: r2) true f row = rowsOf r2 false (f ++ v) row := by
  intro v
  induction v with
  | nil =>
    intro r2 f row h
    rw [escChars]
    simp only [List.nil_append, List.append_nil]
    exact rowsOf_inQ_close r2 f row h
  | cons c v' ih =>
    intro r2 f row h
    by_cases hc : c = '"'
    · subst hc
      rw [escChars_quote]
      simp only [List.cons_append]
      rw [rowsOf_inQ_qq, ih _ _ _ h]
      simp
    · rw [escChars_other c v' hc]
      simp only [List.cons_append]
      rw [rowsOf_inQ_other c _ _ _ hc, ih _ _ _ h]
      simp

lemma rowsOf_quotedRow_mid : ∀ (vs : List (List Char)), vs ≠ [] →
    ∀ (r2 : List Char) (row : List (List Char)),
    rowsOf (quotedRowChars vs ++ '\n' :: r2) false [] row =
      (row ++ vs) :: rowsOf r2 false [] [] := by
  intro vs
  induction vs with
  | nil => intro h; exact absurd rfl h
  | cons v vs' ih =>
    intro _ r2 row
    cases vs' with
    | nil =>
      show rowsOf (quoteChars v ++ '\n' :: r2) false [] row = _
      rw [quoteChars]
      simp only [List.cons_append, List.append_assoc, List.singleton_append, List.nil_append]
      rw [rowsOf_open, rowsOf_escape v ('\n' :: r2) [] row (by intro r3 hr; cases hr),
        rowsOf_newline]
      simp
    | cons v2 rest =>
      show rowsOf ((quoteChars v ++ ',' :: quotedRowChars (v2 :: rest)) ++ '\n' :: r2)
          false [] row = _
      rw [quoteChars]
      simp only [List.cons_append, List.append_assoc, List.singleton_append, List.nil_append]
      rw [rowsOf_open,
        rowsOf_escape v (',' :: (quotedRowChars (v2 :: rest) ++ '\n' :: r2)) [] row
          (by intro r3 hr; cases hr),
        rowsOf_comma, ih (by simp) r2 (row ++ [[] ++ v])]
      simp

lemma rowsOf_quotedRow_end : ∀ (vs : List (List Char)), vs ≠ [] →
    ∀ row : List (List Char),
    rowsOf (quotedRowChars vs) false [] row = [row ++ vs] := by
  intro vs
  induction vs with
  | nil => intro h; exact absurd rfl h
  | cons v vs' ih =>
    intro _ row
    cases vs' with
    | nil =>
      show rowsOf (quoteChars v) false [] row = _
      rw [quoteChars]
      have : '"' :: (escChars v ++ ['"']) = '"' :: (escChars v ++ '"' :: []) := by simp
      rw [this, rowsOf_open,
        rowsOf_escape v [] [] row (by intro r3 hr; cases hr), rowsOf_nil]
      simp
    | cons v2 rest =>
      show rowsOf (quoteChars v ++ ',' :: quotedRowChars (v2 :: rest)) false [] row = _
      rw [quoteChars]
      simp only [List.cons_append, List.append_assoc, List.singleton_append, List.nil_append]
      rw [rowsOf_open,
        rowsOf_escape v (',' :: quotedRowChars (v2 :: rest)) [] row
          (by intro r3 hr; cases hr),
        rowsOf_comma, ih (by simp) (row ++ [[] ++ v])]
      simp

lemma rowsOf_unquoted : ∀ (name rest f : List Char) (row : List (List Char)),
    simpleChars name →
    rowsOf (name ++ rest) false f row = rowsOf rest false (f ++ name) row := by
  intro name
  induction name with
  | nil => intro rest f row _; simp
  | cons c cs ih =>
    intro rest f row h
    obtain ⟨h1, h2, h3⟩ := h c (List.mem_cons_self c cs)
    simp only [List.cons_append]
    rw [rowsOf_other c _ _ _ h1 h2 h3,
      ih rest (f ++ [c]) row (fun x hx => h x (List.mem_cons_of_mem c hx))]
    simp

lemma rowsOf_headerRow : ∀ (ns : List (List Char)), ns ≠ [] →
    (∀ n ∈ ns, simpleChars n) →
    ∀ (r2 : List Char) (row : List (List Char)),
    rowsOf (headerChars ns ++ '\n' :: r2) false [] row =
      (row ++ ns) :: rowsOf r2 false [] [] := by
  intro ns
  induction ns with
  | nil => intro h; exact absurd rfl h
  | cons n ns' ih =>
    intro _ hs r2 row
    cases ns' with
    | nil =>
      show rowsOf (n ++ '\n' :: r2) false [] row = _
      rw [rowsOf_unquoted n _ [] row (hs n (List.mem_cons_self _ _)), rowsOf_newline]
      simp
    | cons n2 rest =>
      show rowsOf ((n ++ ',' :: headerChars (n2 :: rest)) ++ '\n' :: r2)
          false [] row = _
      simp only [List.cons_append, List.append_assoc]
      rw [rowsOf_unquoted n _ [] row (hs n (List.mem_cons_self _ _))]
      rw [rowsOf_comma,
        ih (by simp) (fun x hx => hs x (List.mem_cons_of_mem n hx)) r2 (row ++ [[] ++ n])]
      simp

lemma csvQuote_data (s : String) : (csvQuote s).data = quoteChars s.data := rfl

lemma joinSep_comma_quote_data : ∀ vs : List String,
    (joinSep "," (vs.map csvQuote)).data = quotedRowChars (vs.map String.data) := by
  intro vs
  induction vs with
  | nil => rfl
  | cons v vs' ih =>
    cases vs' with
    | nil => rfl
    | cons v2 rest =>
      show (csvQuote v ++ "," ++ joinSep "," ((v2 :: rest).map csvQuote)).data = _
      rw [String.data_append, String.data_append, ih]
      simp [csvQuote_data, quotedRowChars, List.append_assoc]

lemma joinSep_comma_data : ∀ ns : List String,
    (joinSep "," ns).data = headerChars (ns.map String.data) := by
  intro ns
  induction ns with
  | nil => rfl
  | cons n ns' ih =>
    cases ns' with
    | nil => rfl
    | cons n2 rest =>
      show (n ++ "," ++ joinSep "," (n2 :: rest)).data = _
      rw [String.data_append, String.data_append, ih]
      simp [headerChars, List.append_assoc]

lemma escChars_flatMap : ∀ l : List Char,
    escChars l = l.flatMap (fun c => if c = '"' then ['"', '"'] else [c]) := by
  intro l
  induction l with
  | nil => rfl
  | cons c cs ih =>
    by_cases hc : c = '"'
    · subst hc
      rw [escChars_quote, List.flatMap_cons, ih]
      simp
    · rw [escChars_other c cs hc, List.flatMap_cons, ih]
      simp [hc]

lemma csvQuote_eq_specQuote (s : String) : csvQuote s = specQuote s := by
  apply String.ext
  show ('"' :: (escChars s.data ++ ['"'])) = _
  rw [specQuote, String.data_append, String.data_append, escChars_flatMap]
  rfl

lemma stripBOM_bom (l : List Char) : stripBOM ('\uFEFF' :: l) = l := rfl

lemma map_mk_data (l : List String) :
    (l.map String.data).map (fun d => (⟨d⟩ : String)) = l := by
  rw [List.map_map]
  exact (List.map_congr_left (fun a _ => rfl)).trans (List.map_id l)

/-- **C8.** For a non-empty list of uniform records the exporter's output is
exactly the spec-side serialization: a byte-order marker, a header row of
the shared field names, and one quoted, comma-joined row per record with
embedded quote characters doubled. -/
theorem claim_C8_csv_export (fields : List String) (data : List CSVRecord)
    (hne : data ≠ []) (huni : ∀ r ∈ data, r.map Prod.fst = fields) :
    downloadCSVContent data =
      some (csvSpecOutput fields (data.map (fun r => r.map Prod.snd))) := by
  cases data with
  | nil => exact absurd rfl hne
  | cons r0 rest =>
    simp only [downloadCSVContent, csvSpecOutput, Option.some.injEq]
    rw [huni r0 (List.mem_cons_self _ _), List.map_map]
    apply congrArg (fun t => bomStr ++ joinSep "\n" (joinSep "," fields :: t))
    apply List.map_congr_left
    intro r _
    simp only [Function.comp]
    rw [List.map_map]
    apply congrArg
    apply List.map_congr_left
    intro kv _
    exact csvQuote_eq_specQuote kv.2

/-- Witness for C8: the exporter applied to a concrete two-record set
(one value contains an embedded quote). -/
theorem claim_C8_csv_export_witness :
    downloadCSVContent witC8data =
      some (csvSpecOutput ["name", "views"]
        (witC8data.map (fun r => r.map Prod.snd))) :=
  claim_C8_csv_export ["name", "views"] witC8data (by decide) (by decide)

/-- **C9.** Round trip: exporting a two-row record set and re-parsing the
output with the standard reader reproduces the header and both rows of
field values — for arbitrary values (embedded quotes, commas and newlines
included), as long as the (unquoted) field names contain no quote, comma
or newline. -/
theorem claim_C9_csv_roundtrip (r1 r2 : CSVRecord)
    (hne : r1 ≠ []) (hsame : r2.map Prod.fst = r1.map Prod.fst)
    (hs : ∀ p ∈ r1, simpleField p.1) :
    (downloadCSVContent [r1, r2]).map csvParse =
      some [r1.map Prod.fst, r1.map Prod.snd, r2.map Prod.snd] := by
  have hr2ne : r2 ≠ [] := by
    intro h
    rw [h] at hsame
    exact hne (List.map_eq_nil_iff.mp hsame.symm)
  simp only [downloadCSVContent, List.map_cons, List.map_nil, Option.map_some',
    Option.some.injEq]
  unfold csvParse
  have hdata : (bomStr ++ joinSep "\n"
      [joinSep "," (r1.map Prod.fst),
       joinSep "," (r1.map (fun kv => csvQuote kv.2)),
       joinSep "," (r2.map (fun kv => csvQuote kv.2))]).data =
      '\uFEFF' :: ((joinSep "," (r1.map Prod.fst)).data ++
        '\n' :: ((joinSep "," (r1.map (fun kv => csvQuote kv.2))).data ++
          '\n' :: (joinSep "," (r2.map (fun kv => csvQuote kv.2))).data)) := by
    show (bomStr ++ (joinSep "," (r1.map Prod.fst) ++ "\n" ++
      (joinSep "," (r1.map (fun kv => csvQuote kv.2)) ++ "\n" ++
        joinSep "," (r2.map (fun kv => csvQuote kv.2))))).data = _
    simp [String.data_append, bomStr]
  rw [hdata, stripBOM_bom]
  have hquote1 : r1.map (fun kv => csvQuote kv.2) = (r1.map Prod.snd).map csvQuote := by
    rw [List.map_map]
    rfl
  have hquote2 : r2.map (fun kv => csvQuote kv.2) = (r2.map Prod.snd).map csvQuote := by
    rw [List.map_map]
    rfl
  rw [hquote1, hquote2, joinSep_comma_data, joinSep_comma_quote_data,
    joinSep_comma_quote_data]
  rw [rowsOf_headerRow ((r1.map Prod.fst).map String.data)
    (by simpa using hne)
    (by
      intro n hn
      rcases List.mem_map.mp hn with ⟨s, hsmem, rfl⟩
      rcases List.mem_map.mp hsmem with ⟨p, hp, rfl⟩
      exact hs p hp) _ _]
  rw [rowsOf_quotedRow_mid ((r1.map Prod.snd).map String.data)
    (by simpa using hne) _ _]
  rw [rowsOf_quotedRow_end ((r2.map Prod.snd).map String.data)
    (by simpa using hr2ne) _]
  simp only [List.nil_append, List.map_cons, List.map_nil, map_mk_data]

/-- Witness for C9: the round trip evaluated on a concrete two-record set
whose first value contains an embedded quote. -/
theorem claim_C9_csv_roundtrip_witness :
    (downloadCSVContent [witC9r1, witC9r2]).map csvParse =
      some [witC9r1.map Prod.fst, witC9r1.map Prod.snd, witC9r2.map Prod.snd] :=
  claim_C9_csv_roundtrip witC9r1 witC9r2 (by decide) (by decide) (by decide)

end YTS
